import Mathlib

/-!
Verification of the statscraper base engine (`statscraper/base_scraper.py`)
against its natural-language specification.

The development shallowly embeds the parts of the source the claims are
about:

* the Python exception kinds the code can raise,
* the `ResultSet.append` dimension-resolution loop (lines 103-130),
* the `Result` class with its class-level `dimensionvalues` list and its
  mutable default `dimensions={}` argument (lines 163-174),
* `Dimension.allowed_values` lazy memoization (lines 225-230) and the
  `Dimensionslist`/`Itemslist` id lookups (lines 136-149, 270-289),
* the cursor controller (`move_to`, `move_up`, `move_to_top`,
  `Dataset._move_here`, lines 451-459 and 556-588), and
* `Dataset.fetch` with its query hash and the class-level `_data` cache
  (lines 407-449).

Python object identity is modelled with surrogate keys (arena indices for
tree items, heap indices for ResultSets and raw-dimension dicts), and
exceptions are modelled as explicit error results threaded with the state
reached at the raise point.
-/

namespace Statscraper

/-- The exception kinds relevant to the embedded code paths.
`noSuchItem` and `datasetNotInView` are the classes defined at the top of
`base_scraper.py`; the others are built-in Python exceptions that the code
can raise. -/
inductive PyExc where
  | noSuchItem
  | datasetNotInView
  | stopIteration
  | indexErr
  | typeErr
  | unboundLocalErr
  | uninitParentExc
deriving DecidableEq, Repr

/-! ## Dimensions, dimension values and the `ResultSet.append` loop -/

/-- A `Dimension` as produced by `_fetch_dimensions` (lines 194-214): an id
and a label defaulting to the id.  The optional datatype / explicit
allowed-values branches of `__init__` are modelled in the allowed-values
section below where they matter. -/
structure Dim where
  id : String
  label : String
deriving DecidableEq, Repr

/-- A `DimensionValue` (lines 233-244): the wrapped value together with the
id and label copied from the bound dimension at construction time. -/
structure DV where
  value : String
  dimId : String
  dimLabel : String
deriving DecidableEq, Repr

/-- Model of `DimensionValue(value, dimension)`: copies the dimension's id and label
(lines 236-244). -/
def mkDimensionValue (v : String) (dm : Dim) : DV :=
  { value := v, dimId := dm.id, dimLabel := dm.label }

/-- A raw dimension tag value in `Result.raw_dimensions`: either an already
built `DimensionValue` or a raw scalar (modelled as a string). -/
inductive RawVal where
  | dv (d : DV)
  | scalar (s : String)
deriving DecidableEq, Repr

/-- The dimension-resolution loop of `ResultSet.append` (lines 120-128).

```
for k, v in val.raw_dimensions.items():
    if isinstance(v, DimensionValue):
        val.dimensionvalues.append(v)
    else:
        if k in self.dataset.dimensions:
            dim = DimensionValue(v, dataset_dimensions[k])
        else:
            dim = DimensionValue(v, Dimension())
    val.dimensionvalues.append(dim)
```

The last `append` is indented at loop level, outside the `else` branch, so
it runs on every iteration; `dim` is the function-local variable, carried
here as `dimVar` (`none` = not yet bound, read then raises
`UnboundLocalError`).  `Dimension()` omits the required positional argument
`id_` of `Dimension.__init__` (line 197) and therefore raises `TypeError`.
Returns the list of values appended to `val.dimensionvalues` before
returning or raising, and the exception if one was raised. -/
def resolveTags (dims : List Dim) :
    List (String × RawVal) → Option DV → List DV × Option PyExc
  | [], _ => ([], none)
  | (k, v) :: rest, dimVar =>
    match v with
    | .dv d =>
      match dimVar with
      | none => ([d], some .unboundLocalErr)
      | some d' =>
        let (tl, e) := resolveTags dims rest (some d')
        (d :: d' :: tl, e)
    | .scalar s =>
      match dims.find? (fun dm => dm.id == k) with
      | some dm =>
        let d := mkDimensionValue s dm
        let (tl, e) := resolveTags dims rest (some d)
        (d :: tl, e)
      | none => ([], some .typeErr)

/-! ## The `Result` object model (lines 163-174)

`Result.dimensionvalues` is initialised once at class-definition time
(line 169: `dimensionvalues = Dimensionslist()`), and no statement in the
source ever assigns `self.dimensionvalues` on an instance, so Python
attribute lookup always resolves it to the single class-level list; the
model therefore stores that list once, in `RWorld.classDVs`.  The default
argument `dimensions={}` of `__init__` (line 171) is likewise evaluated
once at definition time; the model keeps raw-dimension dicts in a heap
whose cell 0 is that shared default dict. -/

/-- A `Result` instance: `__init__` sets only `self.value` and
`self.raw_dimensions` (a reference to a dict in the heap). -/
structure ResObj where
  value : Int
  rawRef : Nat
deriving DecidableEq, Repr

/-- The shared state behind `Result` instances: the raw-dimension dict heap
(cell 0 is the shared `{}` default) and the class-level
`Result.dimensionvalues` list. -/
structure RWorld where
  rawHeap : List (List (String × RawVal))
  classDVs : List DV
deriving DecidableEq, Repr

/-- The state at class-definition time: only the shared default dict and
the empty class-level `Dimensionslist`. -/
def initRWorld : RWorld := { rawHeap := [[]], classDVs := [] }

/-- Model of `Result(value)` / `Result(value, dimensions)`: with no `dimensions`
argument the instance aliases the shared default dict (heap cell 0);
with an explicit argument a fresh dict is allocated. -/
def mkResult (w : RWorld) (v : Int) (dims : Option (List (String × RawVal))) :
    ResObj × RWorld :=
  match dims with
  | none => ({ value := v, rawRef := 0 }, w)
  | some d =>
    ({ value := v, rawRef := w.rawHeap.length },
     { w with rawHeap := w.rawHeap ++ [d] })

/-- Reading `r.raw_dimensions`. -/
def readRawDims (w : RWorld) (r : ResObj) : List (String × RawVal) :=
  w.rawHeap.getD r.rawRef []

/-- Reading `r.dimensionvalues`: no instance attribute of that name is ever
created by the source, so the lookup always lands on the class attribute. -/
def readDimensionvalues (w : RWorld) (_r : ResObj) : List DV :=
  w.classDVs

/-- Model of `ResultSet.append(val)` for a ResultSet whose `dataset` is set, with the
dataset's dimension list already materialized and passed as `dims`: runs the
resolution loop over `val.raw_dimensions`, mutating the class-level
`Result.dimensionvalues` list in place; returns the mutated world and the
exception raised by the loop, if any. -/
def rsAppendModel (dims : List Dim) (w : RWorld) (r : ResObj) :
    RWorld × Option PyExc :=
  let (added, e) := resolveTags dims (readRawDims w r) none
  ({ w with classDVs := w.classDVs ++ added }, e)

/-! ## Ordered indexed collections: id lookup (lines 136-149 and 270-289)

Both `Itemslist.__getitem__` and `Dimensionslist.__getitem__` run
`next(filter(f, self))` for a string key and guard it with
`except IndexError`.  `next` on an exhausted filter raises `StopIteration`,
which `except IndexError` does not catch, so the `raise NoSuchItem` lines
are unreachable and the caller observes `StopIteration`. -/

/-- A minimal element of an `Itemslist`: something with an id. -/
structure LItem where
  id : String
deriving DecidableEq, Repr

/-- Model of `Itemslist.__getitem__` with a string key (lines 278-289). -/
def itemslistGetStr (l : List LItem) (key : String) : Except PyExc LItem :=
  match l.find? (fun x => x.id == key) with
  | some x => .ok x
  | none => .error .stopIteration

/-- Model of `Dimensionslist.__getitem__` with a string key (lines 138-149). -/
def dimensionslistGetStr (l : List Dim) (key : String) : Except PyExc Dim :=
  match l.find? (fun x => x.id == key) with
  | some x => .ok x
  | none => .error .stopIteration

/-! ## `Dimension.allowed_values` (lines 197-230)

`__init__` sets `_allowed_values = None` when neither `datatype` nor
`allowed_values` is given.  The `allowed_values` property then runs
`self._allowed_values = self.scraper._fetch_allowed_values(self)`:
`_fetch_allowed_values` is a generator function, so this memoizes the raw,
unconsumed generator object.  Subscripting a generator with a string key
(`dim.allowed_values["female"]`) raises `TypeError`; subscripting a plain
Python list with a string key (the explicit `allowed_values=[...]` branch)
also raises `TypeError`.  Neither object is a `Dimensionslist`. -/

/-- The Python value stored in `Dimension._allowed_values` after the first
property access: either the caller-supplied plain list or the memoized,
unconsumed generator object. -/
inductive PyAllowed where
  | pyList (l : List DV)
  | pyGen
deriving DecidableEq, Repr

/-- The state of a `Dimension` object relevant to `allowed_values`. -/
structure DimState where
  id : String
  label : String
  allowedMemo : Option PyAllowed
deriving DecidableEq, Repr

/-- Model of `Dimension.__init__(id_, label=None, allowed_values=None, datatype=None)`
without a datatype: label defaults to the id, `_allowed_values` is the
explicit list if given, else `None`. -/
def mkDimension (id_ : String) (label : Option String)
    (allowed : Option (List DV)) : DimState :=
  { id := id_, label := label.getD id_, allowedMemo := allowed.map .pyList }

/-- The `allowed_values` property (lines 225-230): on first access with no
memoized value, memoize (and return) the raw generator object produced by
`scraper._fetch_allowed_values(self)`. -/
def allowedValuesProp (d : DimState) : PyAllowed × DimState :=
  match d.allowedMemo with
  | some v => (v, d)
  | none => (.pyGen, { d with allowedMemo := some .pyGen })

/-- Subscripting the value of `allowed_values` with a string key: a
generator object is not subscriptable, and neither is a plain list with a
string index, so both raise `TypeError`. -/
def pyAllowedGet (v : PyAllowed) (_key : String) : Except PyExc DV :=
  match v with
  | .pyGen => .error .typeErr
  | .pyList _ => .error .typeErr

/-! ## The item tree and the cursor controller

The tree of Collections and Datasets is modelled as an arena of nodes;
object identity of an `Item` is its arena index, and `parent_` is the
explicit parent index (set when the item is appended into its parent's
`Itemslist`).  Since `Collection.items` materializes a collection's
children at most once and memoizes them (lines 368-379), the arena holds
the materialized view of the tree. -/

/-- Collection or Dataset. -/
inductive Kind where
  | col
  | ds
deriving DecidableEq, Repr

/-- One materialized `Item`: its id, kind, `parent_` back-reference and its
children's arena indices (empty for datasets, whose `items` is `None`). -/
structure Node where
  id : String
  kind : Kind
  parent : Option Nat
  children : List Nat
deriving DecidableEq, Repr

/-- A query, as passed to `Dataset.fetch`: a Python dict in insertion
order, modelled with scalar (string) values. -/
def Query := List (String × String)
deriving DecidableEq, Repr

/-- A `Result` row as yielded by the `_fetch_data` collaborator: the value
and the raw dimension dict. -/
structure ResultRec where
  value : Int
  raw : List (String × RawVal)
deriving DecidableEq, Repr

/-- A `ResultSet` as stored in the cache: its owning dataset (arena index)
and its rows. -/
structure RS where
  dataset : Nat
  results : List ResultRec
deriving DecidableEq, Repr

/-- The static configuration: the materialized item tree and the
collaborator callbacks `_fetch_data` and `_fetch_dimensions`. -/
structure Scraper where
  nodes : List Node
  fetchDataF : Nat → Option Query → List ResultRec
  fetchDimsF : Nat → List Dim

/-- Arena lookup with a harmless default (never reached on well-formed
states). -/
def nodeD (sc : Scraper) (i : Nat) : Node :=
  sc.nodes.getD i { id := "", kind := .col, parent := none, children := [] }

/-- The mutable state: the cursor (`current_item` and `_collection_path`),
the class-level `Dataset._data` cache (query hash → ResultSet heap index),
the ResultSet heap, each dataset's stored `query` and memoized
`_dimensions`, the log of `_fetch_data` collaborator calls, and the
class-level `Result.dimensionvalues` list. -/
structure St where
  current : Nat
  path : List Nat
  classData : List (String × Nat)
  rsHeap : List RS
  queries : List (Nat × Query)
  dimsMemo : List (Nat × List Dim)
  fetchLog : List (Nat × Option Query)
  classDVs : List DV
deriving DecidableEq, Repr

/-- Model of `BaseScraper.__init__`: a fresh root Collection (arena index 0) as the
current item, the path deque holding just the root, and the pristine
class-level caches of a fresh process. -/
def initSt : St :=
  { current := 0, path := [0], classData := [], rsHeap := [],
    queries := [], dimsMemo := [], fetchLog := [], classDVs := [] }

/-- The outcome of a stateful operation: a value or a raised exception,
each together with the state reached at that point (Python exceptions do
not roll back prior mutations). -/
inductive MRes (α : Type) where
  | ok (a : α) (st : St)
  | err (e : PyExc) (st : St)

/-- The state carried by an outcome. -/
def mresSt {α : Type} : MRes α → St
  | .ok _ st => st
  | .err _ st => st

/-- Whether an outcome is a normal return. -/
def mresIsOk {α : Type} : MRes α → Bool
  | .ok _ _ => true
  | .err _ _ => false

/-- The three key forms accepted by `move_to` / `Itemslist.__getitem__`:
id string, positional index, or item identity (arena index). -/
inductive MKey where
  | str (s : String)
  | idx (i : Int)
  | item (n : Nat)
deriving DecidableEq, Repr

/-- Python list subscripting with an integer index, including negative
indices; `none` models `IndexError`. -/
def pyListGet (l : List Nat) (i : Int) : Option Nat :=
  if 0 ≤ i ∧ i < (l.length : Int) then l.get? i.toNat
  else if -(l.length : Int) ≤ i ∧ i < 0 then l.get? (i + l.length).toNat
  else none

/-- Model of `BaseScraper.move_to(id_)` (lines 578-588): resolve the key against
`self.items` (the current item's children).  On a Dataset the `items`
property is `None` and subscripting `None` raises `TypeError`, which the
`except (StopIteration, IndexError, NoSuchItem)` clause does not catch; a
failed lookup on a Collection is re-raised uniformly as `NoSuchItem`.  On
success the resolved child becomes `current_item` and is appended to the
path deque.  (`_hooks["select"]` is empty on the base class.)
`resolveKey` is the `self.items[id_]` lookup (`Itemslist.__getitem__`,
lines 270-289) over the current item's children. -/
def resolveKey (sc : Scraper) (st : St) (key : MKey) : Option Nat :=
  match key with
  | .str s => (nodeD sc st.current).children.find? (fun c => (nodeD sc c).id == s)
  | .item n => (nodeD sc st.current).children.find? (fun c => c == n)
  | .idx i => pyListGet (nodeD sc st.current).children i

def moveTo (sc : Scraper) (st : St) (key : MKey) : MRes Unit :=
  match (nodeD sc st.current).kind with
  | .ds => .err .typeErr st
  | .col =>
    match resolveKey sc st key with
    | some c => .ok () { st with current := c, path := st.path ++ [c] }
    | none => .err .noSuchItem st

/-- Model of `BaseScraper.move_up()` (lines 565-576): pop the path deque and make
the new rightmost element current, unless the deque has a single element.
Never raises.  (`_hooks["up"]` and `_hooks["top"]` are empty on the base
class.) -/
def moveUp (st : St) : St :=
  if st.path.length > 1 then
    let p' := st.path.dropLast
    { st with path := p', current := p'.getLastD st.current }
  else st

/-- Model of `BaseScraper.move_to_top()` (lines 556-563): `popleft` the root, clear
the deque and push the root back.  (`popleft` on an empty deque would raise
`IndexError`; the deque is never empty after `__init__`.) -/
def moveToTop (st : St) : St :=
  match st.path.head? with
  | some r => { st with current := r, path := [r] }
  | none => st

/-- Model of `Dataset._move_here()` (lines 451-459):

```
if self in self.parent.items:
    self.scraper.move_up()
try:
    self.scraper.move_to(self.id)
except NoSuchItem:
    raise DatasetNotInView()
```

`self.parent` raises on an uninitiated item (lines 332-340); the membership
test is identity membership of the target in its own parent's item list;
only `NoSuchItem` from `move_to` is converted to `DatasetNotInView`.
`moveHereFinish` is the `try/except` clause around the `move_to` call. -/
def moveHereFinish (m : MRes Unit) : MRes Unit :=
  match m with
  | .ok u st2 => .ok u st2
  | .err e st2 =>
    if e = .noSuchItem then .err .datasetNotInView st2 else .err e st2

def moveHere (sc : Scraper) (st : St) (d : Nat) : MRes Unit :=
  match (nodeD sc d).parent with
  | none => .err .uninitParentExc st
  | some p =>
    moveHereFinish
      (moveTo sc (if d ∈ (nodeD sc p).children then moveUp st else st)
        (.str (nodeD sc d).id))

/-- Modelled from the spec: the repositioning procedure as the claim words
it — "if the target Dataset is reachable as a child of the *current* item,
move up one level first; then attempt `move_to(target.id)` from whatever
the current item now is; if that lookup fails, fail with
DatasetNotInView". -/
def specMoveHere (sc : Scraper) (st : St) (d : Nat) : MRes Unit :=
  let st1 :=
    if (nodeD sc st.current).kind = .col ∧ d ∈ (nodeD sc st.current).children
    then moveUp st else st
  match moveTo sc st1 (.str (nodeD sc d).id) with
  | .ok u st2 => .ok u st2
  | .err _ st2 => .err .datasetNotInView st2

/-! ## The query hash and `Dataset.fetch` (lines 407-449)

`Dataset._hash` (lines 420-429) serializes the stored query with
`json.dumps(self.query, sort_keys=True)` and hashes the dump with md5.
md5 is a fixed deterministic function of the dump, so the cache behaviour
is modelled by keying directly on the canonical (key-sorted) dump: equal
dumps give equal hashes, and distinct dumps collide only through the md5
collision risk the spec explicitly accepts.  `Dataset._data = {}`
(line 410) is a class attribute: one dict shared by every `Dataset`
instance, mutated in place by `self._data[hash_] = rs`. -/

/-- Key order for `sort_keys=True`: compare entries by key. -/
def keyLE (a b : String × String) : Prop := a.1 ≤ b.1

instance : DecidableRel keyLE := fun a b =>
  inferInstanceAs (Decidable (a.1 ≤ b.1))

instance : IsTotal (String × String) keyLE :=
  ⟨fun a b => le_total a.1 b.1⟩

instance : IsTrans (String × String) keyLE :=
  ⟨fun _ _ _ h1 h2 => le_trans h1 h2⟩

/-- The key-sorted view of a dict, as produced by `sort_keys=True`. -/
def sortQ (q : Query) : Query := List.insertionSort keyLE q

/-- Render a list of key/value pairs in `json.dumps` object syntax
(string escaping omitted; only equality of dumps matters here). -/
def renderQ (q : Query) : String :=
  "\x7b" ++
    String.intercalate ", "
      (q.map (fun p => "\"" ++ p.1 ++ "\": \"" ++ p.2 ++ "\"")) ++
  "\x7d"

/-- Model of `json.dumps(self.query, sort_keys=True)`: `None` dumps to `"null"`, a
dict dumps with its keys sorted. -/
def dumpQ : Option Query → String
  | none => "null"
  | some q => renderQ (sortQ q)

/-- The stored `self.query` of a dataset (`None` until a truthy query is
passed to `fetch`). -/
def effQuery (st : St) (d : Nat) : Option Query :=
  (st.queries.find? (fun p => p.1 == d)).map (fun p => p.2)

/-- Model of `if query: self.query = query` (lines 433-434): a falsy (empty dict)
or absent argument leaves the stored query unchanged. -/
def applyQueryArg (st : St) (d : Nat) : Option Query → St
  | none => st
  | some ql =>
    if ql.isEmpty then st else { st with queries := (d, ql) :: st.queries }

/-- Model of `Dataset._hash` on the current stored query of dataset `d`. -/
def hashOf (st : St) (d : Nat) : String := dumpQ (effQuery st d)

/-- Lookup in the shared `Dataset._data` dict. -/
def cacheLookup (st : St) (h : String) : Option Nat :=
  (st.classData.find? (fun p => p.1 == h)).map (fun p => p.2)

/-- Model of `Dataset.dimensions` (lines 461-479): reposition the cursor if the
current item is not this dataset, then fetch and memoize the dimension
list on first access. -/
def dimensionsMemoStep (sc : Scraper) (st1 : St) (d : Nat) : MRes (List Dim) :=
  match st1.dimsMemo.find? (fun p => p.1 == d) with
  | some p => .ok p.2 st1
  | none =>
    .ok (sc.fetchDimsF d)
      { st1 with dimsMemo := (d, sc.fetchDimsF d) :: st1.dimsMemo }

def dimensionsProp (sc : Scraper) (st : St) (d : Nat) : MRes (List Dim) :=
  if st.current = d then dimensionsMemoStep sc st d
  else
    match moveHere sc st d with
    | .err e st1 => .err e st1
    | .ok _ st1 => dimensionsMemoStep sc st1 d

/-- Model of `ResultSet.append(val)` as called from `fetch` (lines 103-130): the
ResultSet's dataset is set, so `dataset_dimensions = self.dataset.dimensions`
runs first (possibly fetching and memoizing the dimension list), then the
resolution loop runs over `val.raw_dimensions`, appending onto the
class-level `Result.dimensionvalues` list; an exception from the loop
propagates with the mutations made so far. -/
def appendRowFinish (st1 : St) (dims : List Dim) (row : ResultRec) :
    MRes Unit :=
  match (resolveTags dims row.raw none).2 with
  | some e =>
    .err e
      { st1 with classDVs := st1.classDVs ++ (resolveTags dims row.raw none).1 }
  | none =>
    .ok ()
      { st1 with classDVs := st1.classDVs ++ (resolveTags dims row.raw none).1 }

def appendRow (sc : Scraper) (st : St) (d : Nat) (row : ResultRec) :
    MRes Unit :=
  match dimensionsProp sc st d with
  | .err e st1 => .err e st1
  | .ok dims st1 => appendRowFinish st1 dims row

/-- The `for result in self.scraper._fetch_data(...)` loop (lines 446-447):
append each yielded row to the ResultSet under construction; `acc` is the
underlying list the rows are appended to. -/
def appendRows (sc : Scraper) (st : St) (d : Nat) :
    List ResultRec → List ResultRec → MRes (List ResultRec)
  | [], acc => .ok acc st
  | row :: rest, acc =>
    match appendRow sc st d row with
    | .err e st1 => .err e st1
    | .ok _ st1 => appendRows sc st1 d rest (acc ++ [row])

/-- Model of `Dataset.fetch(query=None)` (lines 431-449): store a truthy query,
hash the stored query, return the cached ResultSet on a hash hit (the
shared class-level cache!), otherwise reposition the cursor if needed,
consume the `_fetch_data` collaborator into a fresh ResultSet, cache it
under the hash and return it.  Returns the heap index of the ResultSet. -/
def fetchFinish (sc : Scraper) (d : Nat) (h : String) (st2 : St) : MRes Nat :=
  match appendRows sc
      { st2 with fetchLog := st2.fetchLog ++ [(d, effQuery st2 d)] } d
      (sc.fetchDataF d (effQuery st2 d)) [] with
  | .err e st4 => .err e st4
  | .ok rsRows st4 =>
    .ok st4.rsHeap.length
      { st4 with
        rsHeap := st4.rsHeap ++ [{ dataset := d, results := rsRows }],
        classData := st4.classData ++ [(h, st4.rsHeap.length)] }

def fetch (sc : Scraper) (st : St) (d : Nat) (q : Option Query) : MRes Nat :=
  match cacheLookup (applyQueryArg st d q) (hashOf (applyQueryArg st d q) d) with
  | some ref => .ok ref (applyQueryArg st d q)
  | none =>
    match (if (applyQueryArg st d q).current = d
           then .ok () (applyQueryArg st d q)
           else moveHere sc (applyQueryArg st d q) d) with
    | .err e st2 => .err e st2
    | .ok _ st2 => fetchFinish sc d (hashOf (applyQueryArg st d q) d) st2

/-! ## Tree well-formedness and the path-stack invariant -/

/-- Well-formedness of the materialized arena: it is nonempty (node 0 is
the root created by `__init__`), the root has no parent, every child link
is within bounds with the child's `parent_` back-reference set to its
parent (as `Collection.items` does on materialization, line 375), and
every `parent_` back-reference is matched by a child link (an item is
appended to exactly the `Itemslist` of the collection that materialized
it). -/
def wfB (sc : Scraper) : Bool :=
  decide (0 < sc.nodes.length) &&
  decide ((nodeD sc 0).parent = none) &&
  ((List.range sc.nodes.length).all fun p =>
    (nodeD sc p).children.all fun c =>
      decide (c < sc.nodes.length) && decide ((nodeD sc c).parent = some p)) &&
  ((List.range sc.nodes.length).all fun c =>
    match (nodeD sc c).parent with
    | none => true
    | some p =>
      decide (p < sc.nodes.length) && decide (c ∈ (nodeD sc p).children))

/-- The path-stack invariant claimed by the spec: the stack starts at the
root (index 0), every consecutive pair (parent, child) satisfies
`child.parent is parent`, the element at the top equals `current_item`,
and every stack entry is a live arena index. -/
def ChainInv (sc : Scraper) (st : St) : Prop :=
  st.path.head? = some 0 ∧
  st.path.getLast? = some st.current ∧
  List.Chain' (fun p c => (nodeD sc c).parent = some p) st.path ∧
  ∀ i ∈ st.path, i < sc.nodes.length

/-- The navigation operations of the claim: `move_to` with each key form,
`move_up` and `move_to_top`. -/
inductive Op where
  | mvId (s : String)
  | mvIdx (i : Int)
  | mvItem (n : Nat)
  | up
  | top
deriving DecidableEq, Repr

/-- Run one navigation operation; a raised exception leaves the
navigation state as it was at the raise point. -/
def stepOp (sc : Scraper) (st : St) : Op → St
  | .mvId s => mresSt (moveTo sc st (.str s))
  | .mvIdx i => mresSt (moveTo sc st (.idx i))
  | .mvItem n => mresSt (moveTo sc st (.item n))
  | .up => moveUp st
  | .top => moveToTop st

/-- Run a sequence of navigation operations from the initial state. -/
def runOps (sc : Scraper) (ops : List Op) : St :=
  ops.foldl (stepOp sc) initSt

/-! ## Concrete scenario: a scraper with hardcoded yields

The flat tree of the repository's own test scraper: the root collection
with datasets `Dataset_1` and `Dataset_2`, one dimension, and one row for
`Dataset_1`. -/

def cMuniDim : Dim := { id := "municipality", label := "municipality" }

def cSc : Scraper :=
  { nodes :=
      [ { id := "<root>", kind := .col, parent := none, children := [1, 2] },
        { id := "Dataset_1", kind := .ds, parent := some 0, children := [] },
        { id := "Dataset_2", kind := .ds, parent := some 0, children := [] } ],
    fetchDataF := fun d _ =>
      if d = 1 then
        [{ value := 127,
           raw := [("municipality", RawVal.scalar "Robertsfors kommun")] }]
      else [{ value := 12, raw := [] }, { value := 130, raw := [] }],
    fetchDimsF := fun _ => [cMuniDim] }

/-- The state after `Dataset_1.fetch()` (no query) on a fresh scraper. -/
def c2st1 : St := mresSt (fetch cSc initSt 1 none)

/-- Queries that are structurally equal but differ in key insertion
order. -/
def cq1 : Query := [("a", "1"), ("b", "2")]

def cq2 : Query := [("b", "2"), ("a", "1")]

/-- The state after `Dataset_1.fetch({"a": "1", "b": "2"})` on a fresh
scraper. -/
def c1st1 : St := mresSt (fetch cSc initSt 1 (some cq1))

/-- A state with the cursor at `Dataset_2` (path root → Dataset_2). -/
def cSt3 : St := { initSt with current := 2, path := [0, 2] }

/-- A `DimensionValue` as a collaborator might pre-build it. -/
def cFemaleDV : DV := { value := "female", dimId := "gender", dimLabel := "gender" }

def cGenderDim : Dim := { id := "gender", label := "gender" }

/-- A Result whose only raw tag value is already a DimensionValue. -/
def c6mk : ResObj × RWorld :=
  mkResult initRWorld 5 (some [("gender", RawVal.dv cFemaleDV)])

/-- A Result with a raw scalar tag whose id is not among the dataset's
dimensions. -/
def c7mk : ResObj × RWorld :=
  mkResult initRWorld 7 (some [("region", RawVal.scalar "Umeå kommun")])

/-- The `gender` dimension constructed with neither an allowed-values list
nor a datatype. -/
def cGenderState : DimState := mkDimension "gender" none none

/-- Raw tags for the C10 scenario. -/
def c10tags : List (String × RawVal) :=
  [("municipality", RawVal.scalar "Robertsfors kommun")]

/-- The world/error pair after appending the C10 Result. -/
def c10res : RWorld × Option PyExc :=
  rsAppendModel [cMuniDim] (mkResult initRWorld 1 (some c10tags)).2
    (mkResult initRWorld 1 (some c10tags)).1

/-! # Theorems -/

/-- Claim C5 (code_bug): the claim says an id lookup with no matching
element fails with ItemNotFound (NoSuchItem).  In the code,
`next(filter(f, self))` raises `StopIteration` on a miss and the
`except IndexError` clause can never catch it, so both `Itemslist` and
`Dimensionslist` lookups surface `StopIteration` — a different exception
kind — and the `raise NoSuchItem` lines are dead code. -/
theorem claim_C5 :
    itemslistGetStr [{ id := "Dataset_1" }] "nope" = .error .stopIteration ∧
    dimensionslistGetStr [cGenderDim] "nope" = .error .stopIteration ∧
    PyExc.stopIteration ≠ PyExc.noSuchItem :=
  ⟨rfl, rfl, by decide⟩

/-- Claim C6 (code_bug): the claim says appending a Result whose raw tag
value is already a DimensionValue succeeds, adopts it as-is and produces
exactly one resolved entry per tag.  In the code the final
`val.dimensionvalues.append(dim)` is indented at loop level, so after
adopting the DimensionValue the loop also appends the local `dim`, which
is unbound on this path: the append raises `UnboundLocalError` after
having appended the adopted value. -/
theorem claim_C6 :
    (rsAppendModel [cGenderDim] c6mk.2 c6mk.1).2 = some PyExc.unboundLocalErr ∧
    (rsAppendModel [cGenderDim] c6mk.2 c6mk.1).1.classDVs = [cFemaleDV] :=
  ⟨rfl, rfl⟩

/-- Claim C7 (code_bug): the claim says a raw tag whose id is not among
the dataset's dimensions gets a DimensionValue bound to an anonymous
untyped Dimension sharing the raw id.  The code calls `Dimension()`
without the required positional argument `id_`, so the append raises
`TypeError` and nothing is attached. -/
theorem claim_C7 :
    (rsAppendModel [cGenderDim] c7mk.2 c7mk.1).2 = some PyExc.typeErr ∧
    (rsAppendModel [cGenderDim] c7mk.2 c7mk.1).1.classDVs = [] :=
  ⟨rfl, rfl⟩

/-- Claim C8 (code_bug): the claim says the allowed values of a Dimension
with neither explicit values nor a datatype are lazily fetched and
memoized, and that lookup by id "female" and by label "Women" both
succeed.  The property does memoize lazily — but it memoizes the raw
generator object returned by `_fetch_allowed_values`, and a generator is
not subscriptable, so both lookups raise `TypeError` (and
`Dimensionslist.__getitem__` would match only ids, never labels). -/
theorem claim_C8 :
    cGenderState.allowedMemo = none ∧
    (allowedValuesProp cGenderState).1 = PyAllowed.pyGen ∧
    (allowedValuesProp cGenderState).2.allowedMemo = some PyAllowed.pyGen ∧
    pyAllowedGet (allowedValuesProp cGenderState).1 "female" =
      .error PyExc.typeErr ∧
    pyAllowedGet (allowedValuesProp cGenderState).1 "Women" =
      .error PyExc.typeErr :=
  ⟨rfl, rfl, rfl, rfl, rfl⟩

/-- Claim C2 (code_bug): the claim says each Dataset owns its own
query→ResultSet cache.  `Dataset._data = {}` is a class attribute shared
by every Dataset instance: after `Dataset_1.fetch()` has cached its
ResultSet under the hash of `None`, `Dataset_2.fetch()` hits the same
cache entry and returns `Dataset_1`'s ResultSet (heap index 0, owned by
dataset 1, rows from `_fetch_data(Dataset_1)`) without ever invoking the
collaborator on `Dataset_2` — the state, including the fetch log, is
completely unchanged. -/
theorem claim_C2 :
    fetch cSc initSt 1 none = .ok 0 c2st1 ∧
    fetch cSc c2st1 2 none = .ok 0 c2st1 ∧
    (c2st1.rsHeap.getD 0 { dataset := 0, results := [] }).dataset = 1 ∧
    c2st1.fetchLog = [(1, none)] ∧
    c2st1.rsHeap.length = 1 :=
  ⟨rfl, rfl, rfl, rfl, rfl⟩

/-- Claim C3, counterexample: with the cursor at `Dataset_2` (a sibling
dataset of the target `Dataset_1`), the repositioning procedure described
by the claim — move up only when the target is a child of the *current*
item — would find the target unreachable and fail with DatasetNotInView,
but the code's `_move_here` guard tests membership in the target's own
parent's items, so the code moves up and then succeeds, landing on
`Dataset_1`. -/
theorem claim_C3_counterexample :
    moveHere cSc cSt3 1 = .ok () { cSt3 with current := 1, path := [0, 1] } ∧
    specMoveHere cSc cSt3 1 = .err PyExc.datasetNotInView cSt3 :=
  ⟨rfl, rfl⟩

/-- Claim C9: `move_up` with the path stack at a single element (the
root) is a no-op: it raises nothing (the function is total), leaves the
whole state — in particular `current_item` and the path stack — unchanged,
and is therefore idempotent at root. -/
theorem claim_C9 (st : St) (h : st.path.length = 1) :
    moveUp st = st ∧ moveUp (moveUp st) = moveUp st := by
  have h1 : moveUp st = st := by
    unfold moveUp
    rw [if_neg]
    omega
  exact ⟨h1, by rw [h1, h1]⟩

/-- Witness for C9 at the initial state. -/
theorem claim_C9_witness :
    initSt.path.length = 1 ∧
    (moveUp initSt = initSt ∧ moveUp (moveUp initSt) = moveUp initSt) :=
  ⟨rfl, claim_C9 initSt rfl⟩

/-! ## Well-formedness extraction lemmas -/

theorem wf_pos {sc : Scraper} (hw : wfB sc = true) : 0 < sc.nodes.length := by
  unfold wfB at hw
  rw [Bool.and_eq_true, Bool.and_eq_true, Bool.and_eq_true] at hw
  exact of_decide_eq_true hw.1.1.1

theorem wf_child_parent {sc : Scraper} (hw : wfB sc = true) :
    ∀ p, p < sc.nodes.length → ∀ c ∈ (nodeD sc p).children,
      c < sc.nodes.length ∧ (nodeD sc c).parent = some p := by
  unfold wfB at hw
  rw [Bool.and_eq_true, Bool.and_eq_true, Bool.and_eq_true] at hw
  intro p hp c hc
  have h := List.all_eq_true.mp hw.1.2 p (List.mem_range.mpr hp)
  have h2 := List.all_eq_true.mp h c hc
  rw [Bool.and_eq_true] at h2
  exact ⟨of_decide_eq_true h2.1, of_decide_eq_true h2.2⟩

theorem wf_parent_child {sc : Scraper} (hw : wfB sc = true) :
    ∀ c, c < sc.nodes.length → ∀ p, (nodeD sc c).parent = some p →
      p < sc.nodes.length ∧ c ∈ (nodeD sc p).children := by
  unfold wfB at hw
  rw [Bool.and_eq_true, Bool.and_eq_true, Bool.and_eq_true] at hw
  intro c hc p hp
  have h := List.all_eq_true.mp hw.2 c (List.mem_range.mpr hc)
  rw [hp, Bool.and_eq_true] at h
  exact ⟨of_decide_eq_true h.1, of_decide_eq_true h.2⟩

/-- Claim C3, amended: for a dataset whose parent back-reference is
initialized (as it is for every materialized item), the guard
`self in self.parent.items` always holds, so repositioning always first
moves the cursor up one level (a no-op at root), then attempts
`move_to(target.id)` from whatever the current item now is; if that lookup
fails with the item-lookup error, the operation fails with
DatasetNotInView instead. -/
theorem claim_C3_amended (sc : Scraper) (st : St) (d p : Nat)
    (hw : wfB sc = true) (hd : d < sc.nodes.length)
    (hp : (nodeD sc d).parent = some p) :
    moveHere sc st d =
      moveHereFinish (moveTo sc (moveUp st) (.str (nodeD sc d).id)) := by
  have hmem : d ∈ (nodeD sc p).children := (wf_parent_child hw d hd p hp).2
  unfold moveHere
  rw [hp]
  simp only [if_pos hmem]

/-- Witness for the amended C3 at the concrete flat scraper, with the
cursor at `Dataset_2` and target `Dataset_1`. -/
theorem claim_C3_witness :
    wfB cSc = true ∧ 1 < cSc.nodes.length ∧
    (nodeD cSc 1).parent = some 0 ∧
    moveHere cSc cSt3 1 =
      moveHereFinish (moveTo cSc (moveUp cSt3) (.str (nodeD cSc 1).id)) :=
  ⟨by decide, by decide, rfl, claim_C3_amended cSc cSt3 1 0 (by decide) (by decide) rfl⟩

/-! ## Path-stack invariant preservation (claim C4) -/

theorem mem_of_getLast? {l : List Nat} {a : Nat} (h : l.getLast? = some a) :
    a ∈ l := by
  have hne : l ≠ [] := by
    intro he
    rw [he] at h
    cases h
  have := List.dropLast_append_getLast? a (by rw [h]; rfl)
  rw [← this]
  exact List.mem_append_right _ (List.mem_singleton.mpr rfl)

theorem resolveKey_mem {sc : Scraper} {st : St} {key : MKey} {c : Nat}
    (h : resolveKey sc st key = some c) :
    c ∈ (nodeD sc st.current).children := by
  cases key with
  | str s => exact List.mem_of_find?_eq_some h
  | item n => exact List.mem_of_find?_eq_some h
  | idx i =>
    have h' : pyListGet (nodeD sc st.current).children i = some c := h
    unfold pyListGet at h'
    split at h'
    · exact List.get?_mem h'
    · split at h'
      · exact List.get?_mem h'
      · cases h'

/-- Pushing a child of the stack's top preserves the chain shape. -/
theorem chainExt {R : Nat → Nat → Prop} {n : Nat} {p : List Nat}
    {cur c : Nat} (h1 : p.head? = some 0) (h2 : p.getLast? = some cur)
    (h3 : List.Chain' R p) (h4 : ∀ i ∈ p, i < n)
    (hR : R cur c) (hc : c < n) :
    (p ++ [c]).head? = some 0 ∧ (p ++ [c]).getLast? = some c ∧
    List.Chain' R (p ++ [c]) ∧ ∀ i ∈ p ++ [c], i < n := by
  cases p with
  | nil => cases h1
  | cons a t =>
    refine ⟨by simpa using h1, by exact List.getLast?_concat _, ?_, ?_⟩
    · rw [List.chain'_append]
      refine ⟨h3, List.chain'_singleton c, ?_⟩
      intro x hx y hy
      simp only [List.head?_cons, Option.mem_def, Option.some.injEq] at hy
      rw [h2] at hx
      simp only [Option.mem_def, Option.some.injEq] at hx
      subst hx
      subst hy
      exact hR
    · intro i hi
      rcases List.mem_append.mp hi with hm | hm
      · exact h4 i hm
      · rw [List.mem_singleton.mp hm]
        exact hc

/-- Dropping the stack's top preserves the chain shape. -/
theorem chainDrop {R : Nat → Nat → Prop} {n : Nat} {p : List Nat}
    (h1 : p.head? = some 0) (h3 : List.Chain' R p) (h4 : ∀ i ∈ p, i < n)
    (hlen : 1 < p.length) :
    p.dropLast.head? = some 0 ∧ List.Chain' R p.dropLast ∧
    (∀ i ∈ p.dropLast, i < n) ∧ p.dropLast ≠ [] := by
  have hne : p ≠ [] := by
    intro he
    rw [he] at hlen
    exact absurd hlen (by decide)
  have hsplit := List.dropLast_append_getLast hne
  refine ⟨?_, ?_, ?_, ?_⟩
  · cases p with
    | nil => cases h1
    | cons a t =>
      cases t with
      | nil => simp at hlen
      | cons b t' => simpa using h1
  · rw [← hsplit] at h3
    exact (List.chain'_append.mp h3).1
  · intro i hi
    exact h4 i (List.dropLast_sublist p |>.mem hi)
  · intro he
    have : p.length = 1 := by
      have := congrArg List.length hsplit
      rw [List.length_append, he] at this
      simpa using this.symm
    omega

theorem chainInv_moveTo {sc : Scraper} {st : St} (hw : wfB sc = true)
    (hinv : ChainInv sc st) (key : MKey) :
    ChainInv sc (mresSt (moveTo sc st key)) := by
  obtain ⟨h1, h2, h3, h4⟩ := hinv
  unfold moveTo
  cases hk : (nodeD sc st.current).kind with
  | ds => exact ⟨h1, h2, h3, h4⟩
  | col =>
    cases hf : resolveKey sc st key with
    | none => exact ⟨h1, h2, h3, h4⟩
    | some c =>
      have hmem := resolveKey_mem hf
      have hcur_lt : st.current < sc.nodes.length :=
        h4 st.current (mem_of_getLast? h2)
      have hcp := wf_child_parent hw st.current hcur_lt c hmem
      have hext := chainExt h1 h2 h3 h4 hcp.2 hcp.1
      exact ⟨hext.1, hext.2.1, hext.2.2.1, hext.2.2.2⟩

theorem chainInv_moveUp {sc : Scraper} {st : St} (hinv : ChainInv sc st) :
    ChainInv sc (moveUp st) := by
  obtain ⟨h1, h2, h3, h4⟩ := hinv
  unfold moveUp
  split
  · next hlen =>
    have hd := chainDrop h1 h3 h4 hlen
    have hlast : st.path.dropLast.getLast? =
        some (st.path.dropLast.getLastD st.current) := by
      cases hg : st.path.dropLast.getLast? with
      | none => exact absurd (List.getLast?_eq_none_iff.mp hg) hd.2.2.2
      | some y => rw [List.getLastD_eq_getLast?, hg]; rfl
    exact ⟨hd.1, hlast.symm ▸ rfl, hd.2.1, hd.2.2.1⟩
  · exact ⟨h1, h2, h3, h4⟩

theorem chainInv_moveToTop {sc : Scraper} {st : St} (hinv : ChainInv sc st) :
    ChainInv sc (moveToTop st) := by
  obtain ⟨h1, h2, h3, h4⟩ := hinv
  unfold moveToTop
  rw [h1]
  refine ⟨rfl, rfl, List.chain'_singleton 0, ?_⟩
  intro i hi
  rw [List.mem_singleton.mp hi]
  refine h4 0 ?_
  cases hp : st.path with
  | nil => rw [hp] at h1; cases h1
  | cons a t =>
    rw [hp] at h1
    simp only [List.head?_cons, Option.some.injEq] at h1
    rw [← h1]
    exact List.mem_cons_self a t

theorem chainInv_stepOp {sc : Scraper} {st : St} (hw : wfB sc = true)
    (hinv : ChainInv sc st) (op : Op) : ChainInv sc (stepOp sc st op) := by
  cases op with
  | mvId s => exact chainInv_moveTo hw hinv (.str s)
  | mvIdx i => exact chainInv_moveTo hw hinv (.idx i)
  | mvItem n => exact chainInv_moveTo hw hinv (.item n)
  | up => exact chainInv_moveUp hinv
  | top => exact chainInv_moveToTop hinv

/-- Claim C4: on a well-formed materialized tree, every sequence of
`move_to` / `move_up` / `move_to_top` operations from the initial state
keeps the path stack a valid root-to-current chain: it starts at the root,
every consecutive (parent, child) pair satisfies `child.parent is parent`,
and the stack's top is the controller's `current_item`. -/
theorem claim_C4 (sc : Scraper) (hw : wfB sc = true) (ops : List Op) :
    ChainInv sc (runOps sc ops) := by
  have hinit : ChainInv sc initSt :=
    ⟨rfl, rfl, List.chain'_singleton 0, by
      intro i hi
      rw [List.mem_singleton.mp hi]
      exact wf_pos hw⟩
  unfold runOps
  generalize initSt = st0 at hinit ⊢
  induction ops generalizing st0 with
  | nil => exact hinit
  | cons o t ih => exact ih (stepOp sc st0 o) (chainInv_stepOp hw hinit o)

/-- Witness for C4 at the concrete flat scraper with a mixed operation
sequence (including failing lookups, which must leave the state intact). -/
theorem claim_C4_witness :
    wfB cSc = true ∧
    ChainInv cSc (runOps cSc
      [.mvId "Dataset_1", .up, .mvIdx 1, .mvId "nope", .up, .mvItem 2,
       .top, .mvIdx (-7), .mvId "Dataset_2", .up, .up]) :=
  ⟨by decide,
   claim_C4 cSc (by decide)
     [.mvId "Dataset_1", .up, .mvIdx 1, .mvId "nope", .up, .mvItem 2,
      .top, .mvIdx (-7), .mvId "Dataset_2", .up, .up]⟩

/-! ## Hash stability of `sort_keys=True` (claim C1) -/

/-- Strict key order, used to show the canonical form is unique. -/
def keyLT (a b : String × String) : Prop := a.1 < b.1

instance : IsAntisymm (String × String) keyLT :=
  ⟨fun _ _ h1 h2 => absurd h2 (lt_asymm h1)⟩

theorem pairwise_keyLT_of_sorted_nodup {l : Query}
    (hs : List.Sorted keyLE l) (hnd : (l.map Prod.fst).Nodup) :
    List.Pairwise keyLT l := by
  have hne : List.Pairwise (fun a b : String × String => a.1 ≠ b.1) l :=
    List.pairwise_map.mp hnd
  exact List.Pairwise.imp (fun h => lt_of_le_of_ne h.1 h.2) (hs.and hne)

/-- A dict and any reordering of it have the same `sort_keys=True` view:
the sorted form of a duplicate-free key list is unique up to
permutation. -/
theorem sortQ_eq_of_perm {q1 q2 : Query} (hp : List.Perm q1 q2)
    (hnd : (q1.map Prod.fst).Nodup) : sortQ q1 = sortQ q2 := by
  have hp1 : List.Perm (sortQ q1) q1 := List.perm_insertionSort keyLE q1
  have hp2 : List.Perm (sortQ q2) q2 := List.perm_insertionSort keyLE q2
  have hperm : List.Perm (sortQ q1) (sortQ q2) :=
    (hp1.trans hp).trans hp2.symm
  have hnd1 : ((sortQ q1).map Prod.fst).Nodup :=
    ((hp1.map Prod.fst).nodup_iff).mpr hnd
  have hnd2 : ((sortQ q2).map Prod.fst).Nodup :=
    ((hperm.map Prod.fst).nodup_iff).mp hnd1
  exact List.eq_of_perm_of_sorted hperm
    (pairwise_keyLT_of_sorted_nodup (List.sorted_insertionSort keyLE q1) hnd1)
    (pairwise_keyLT_of_sorted_nodup (List.sorted_insertionSort keyLE q2) hnd2)

/-- Structurally equal queries (same key/value pairs, any insertion order,
duplicate-free keys as in any Python dict) produce the same canonical dump
and hence the same md5 hash. -/
theorem dumpQ_eq_of_perm {q1 q2 : Query} (hp : List.Perm q1 q2)
    (hnd : (q1.map Prod.fst).Nodup) : dumpQ (some q1) = dumpQ (some q2) :=
  congrArg renderQ (sortQ_eq_of_perm hp hnd)

/-! ## Field-preservation lemmas for `fetch`

The navigation and dimension machinery never touches a dataset's stored
query or the class-level `_data` cache; these lemmas let the cache
postcondition of a successful `fetch` be read off. -/

theorem moveUp_qc (st : St) :
    (moveUp st).queries = st.queries ∧ (moveUp st).classData = st.classData := by
  unfold moveUp
  split
  · exact ⟨rfl, rfl⟩
  · exact ⟨rfl, rfl⟩

theorem moveTo_qc (sc : Scraper) (st : St) (key : MKey) :
    (mresSt (moveTo sc st key)).queries = st.queries ∧
    (mresSt (moveTo sc st key)).classData = st.classData := by
  unfold moveTo
  cases (nodeD sc st.current).kind with
  | ds => exact ⟨rfl, rfl⟩
  | col =>
    cases resolveKey sc st key with
    | some c => exact ⟨rfl, rfl⟩
    | none => exact ⟨rfl, rfl⟩

theorem moveHereFinish_st (m : MRes Unit) :
    mresSt (moveHereFinish m) = mresSt m := by
  cases m with
  | ok u s => rfl
  | err e s =>
    show mresSt (if e = PyExc.noSuchItem
        then MRes.err PyExc.datasetNotInView s else MRes.err e s) =
      mresSt (MRes.err e s)
    split
    · rfl
    · rfl

theorem moveHere_qc (sc : Scraper) (st : St) (d : Nat) :
    (mresSt (moveHere sc st d)).queries = st.queries ∧
    (mresSt (moveHere sc st d)).classData = st.classData := by
  unfold moveHere
  cases (nodeD sc d).parent with
  | none => exact ⟨rfl, rfl⟩
  | some p =>
    rw [moveHereFinish_st]
    by_cases hm : d ∈ (nodeD sc p).children
    · rw [if_pos hm]
      have h1 := moveUp_qc st
      have h2 := moveTo_qc sc (moveUp st) (.str (nodeD sc d).id)
      exact ⟨h2.1.trans h1.1, h2.2.trans h1.2⟩
    · rw [if_neg hm]
      exact moveTo_qc sc st (.str (nodeD sc d).id)

theorem dimensionsMemoStep_qc (sc : Scraper) (st1 : St) (d : Nat) :
    (mresSt (dimensionsMemoStep sc st1 d)).queries = st1.queries ∧
    (mresSt (dimensionsMemoStep sc st1 d)).classData = st1.classData := by
  unfold dimensionsMemoStep
  cases st1.dimsMemo.find? (fun p => p.1 == d) with
  | some p => exact ⟨rfl, rfl⟩
  | none => exact ⟨rfl, rfl⟩

theorem dimensionsProp_qc (sc : Scraper) (st : St) (d : Nat) :
    (mresSt (dimensionsProp sc st d)).queries = st.queries ∧
    (mresSt (dimensionsProp sc st d)).classData = st.classData := by
  unfold dimensionsProp
  by_cases hc : st.current = d
  · rw [if_pos hc]
    exact dimensionsMemoStep_qc sc st d
  · rw [if_neg hc]
    have h := moveHere_qc sc st d
    cases hmh : moveHere sc st d with
    | err e st1 =>
      rw [hmh] at h
      exact h
    | ok u st1 =>
      rw [hmh] at h
      have h2 := dimensionsMemoStep_qc sc st1 d
      exact ⟨h2.1.trans h.1, h2.2.trans h.2⟩

theorem appendRowFinish_qc (st1 : St) (dims : List Dim) (row : ResultRec) :
    (mresSt (appendRowFinish st1 dims row)).queries = st1.queries ∧
    (mresSt (appendRowFinish st1 dims row)).classData = st1.classData := by
  unfold appendRowFinish
  cases (resolveTags dims row.raw none).2 with
  | some e => exact ⟨rfl, rfl⟩
  | none => exact ⟨rfl, rfl⟩

theorem appendRow_qc (sc : Scraper) (st : St) (d : Nat) (row : ResultRec) :
    (mresSt (appendRow sc st d row)).queries = st.queries ∧
    (mresSt (appendRow sc st d row)).classData = st.classData := by
  unfold appendRow
  have h := dimensionsProp_qc sc st d
  cases hdp : dimensionsProp sc st d with
  | err e st1 =>
    rw [hdp] at h
    exact h
  | ok dims st1 =>
    rw [hdp] at h
    have h2 := appendRowFinish_qc st1 dims row
    exact ⟨h2.1.trans h.1, h2.2.trans h.2⟩

theorem appendRows_qc (sc : Scraper) (d : Nat) :
    ∀ (rows : List ResultRec) (acc : List ResultRec) (st : St),
      (mresSt (appendRows sc st d rows acc)).queries = st.queries ∧
      (mresSt (appendRows sc st d rows acc)).classData = st.classData := by
  intro rows
  induction rows with
  | nil => intro acc st; exact ⟨rfl, rfl⟩
  | cons row rest ih =>
    intro acc st
    simp only [appendRows]
    have h := appendRow_qc sc st d row
    cases har : appendRow sc st d row with
    | err e st1 =>
      rw [har] at h
      exact h
    | ok u st1 =>
      rw [har] at h
      have h2 := ih (acc ++ [row]) st1
      exact ⟨h2.1.trans h.1, h2.2.trans h.2⟩

theorem effQuery_congr {st st' : St} (h : st'.queries = st.queries) (d : Nat) :
    effQuery st' d = effQuery st d := by
  unfold effQuery
  rw [h]

theorem effQuery_applyArg {q : Query} (hne : ¬ q.isEmpty = true) (st : St)
    (d : Nat) : effQuery (applyQueryArg st d (some q)) d = some q := by
  simp only [applyQueryArg]
  rw [if_neg hne]
  unfold effQuery
  rw [List.find?_cons_of_pos _ (by simp)]
  rfl

/-- Cache postcondition of a successful `fetch`: the returned state maps
the hash of its stored query to the returned ResultSet, and the stored
query is the one `applyQueryArg` left. -/
theorem fetchFinish_ok {sc : Scraper} {d : Nat} {hsh : String} {st2 : St}
    {ref : Nat} {st' : St} (h : fetchFinish sc d hsh st2 = .ok ref st') :
    st'.queries = st2.queries ∧
    ∃ st4 : St, st4.queries = st2.queries ∧ st4.classData = st2.classData ∧
      ref = st4.rsHeap.length ∧
      st'.classData = st4.classData ++ [(hsh, st4.rsHeap.length)] := by
  unfold fetchFinish at h
  have hq4 := appendRows_qc sc d (sc.fetchDataF d (effQuery st2 d)) []
    { st2 with fetchLog := st2.fetchLog ++ [(d, effQuery st2 d)] }
  cases hap : appendRows sc
      { st2 with fetchLog := st2.fetchLog ++ [(d, effQuery st2 d)] } d
      (sc.fetchDataF d (effQuery st2 d)) [] with
  | err e st4 =>
    rw [hap] at h
    cases h
  | ok rsRows st4 =>
    rw [hap] at h
    rw [hap] at hq4
    injection h with h1 h2
    subst h1
    subst h2
    exact ⟨hq4.1, st4, hq4.1, hq4.2, rfl, rfl⟩

/-- Cache postcondition of a successful `fetch`: the returned state maps
the hash of its stored query to the returned ResultSet, and the stored
query is the one `applyQueryArg` left. -/
theorem fetch_ok_state {sc : Scraper} {st : St} {d : Nat} {q : Option Query}
    {ref : Nat} {st' : St} (h : fetch sc st d q = .ok ref st') :
    st'.queries = (applyQueryArg st d q).queries ∧
    cacheLookup st' (hashOf st' d) = some ref := by
  unfold fetch at h
  cases hcl : cacheLookup (applyQueryArg st d q)
      (hashOf (applyQueryArg st d q) d) with
  | some r =>
    rw [hcl] at h
    have h' : MRes.ok r (applyQueryArg st d q) = MRes.ok ref st' := h
    injection h' with h1 h2
    subst h1
    subst h2
    exact ⟨rfl, hcl⟩
  | none =>
    rw [hcl] at h
    cases hmv : (if (applyQueryArg st d q).current = d
                 then MRes.ok () (applyQueryArg st d q)
                 else moveHere sc (applyQueryArg st d q) d) with
    | err e st2 =>
      rw [hmv] at h
      cases h
    | ok u st2 =>
      rw [hmv] at h
      have hff : fetchFinish sc d (hashOf (applyQueryArg st d q) d) st2 =
          .ok ref st' := h
      have hq2 : st2.queries = (applyQueryArg st d q).queries ∧
          st2.classData = (applyQueryArg st d q).classData := by
        by_cases hc : (applyQueryArg st d q).current = d
        · rw [if_pos hc] at hmv
          injection hmv with hu hst
          rw [← hst]
          exact ⟨rfl, rfl⟩
        · rw [if_neg hc] at hmv
          have hh := moveHere_qc sc (applyQueryArg st d q) d
          rw [hmv] at hh
          exact hh
      obtain ⟨hq', st4, hq4, hc4, href, hcd'⟩ := fetchFinish_ok hff
      refine ⟨hq'.trans hq2.1, ?_⟩
      have hQ : effQuery st' d = effQuery (applyQueryArg st d q) d :=
        effQuery_congr (hq'.trans hq2.1) d
      unfold cacheLookup hashOf
      rw [hQ, hcd', hc4, hq2.2, List.find?_append]
      have hnone : ((applyQueryArg st d q).classData.find?
          (fun p => p.1 == dumpQ (effQuery (applyQueryArg st d q) d))) =
          none := by
        have hx := hcl
        unfold cacheLookup hashOf at hx
        exact Option.map_eq_none'.mp hx
      rw [hnone, Option.none_or,
        List.find?_cons_of_pos _ (by simp [hashOf])]
      rw [href]
      rfl

/-- Claim C1: after a successful `fetch` with query `q1`, a second `fetch`
on the same dataset with a structurally equal query `q2` (same key/value
pairs in any insertion order; keys duplicate-free as in any Python dict)
hashes identically, returns the identical cached ResultSet (same heap
index), does not invoke the `_fetch_data` collaborator again (unchanged
fetch log) and does not move the cursor (unchanged `current_item` and path
stack): the only state change is the rebound `self.query`. -/
theorem claim_C1 (sc : Scraper) (st : St) (d : Nat) (q1 q2 : Query)
    (ref : Nat) (st' : St) (hp : List.Perm q1 q2)
    (hnd : (q1.map Prod.fst).Nodup)
    (h1 : fetch sc st d (some q1) = .ok ref st') :
    fetch sc st' d (some q2) = .ok ref (applyQueryArg st' d (some q2)) ∧
    hashOf (applyQueryArg st' d (some q2)) d =
      hashOf (applyQueryArg st d (some q1)) d ∧
    (applyQueryArg st' d (some q2)).fetchLog = st'.fetchLog ∧
    (applyQueryArg st' d (some q2)).current = st'.current ∧
    (applyQueryArg st' d (some q2)).path = st'.path ∧
    (applyQueryArg st' d (some q2)).rsHeap = st'.rsHeap := by
  obtain ⟨hq, hcache⟩ := fetch_ok_state h1
  have hst'1 : hashOf st' d = hashOf (applyQueryArg st d (some q1)) d := by
    unfold hashOf
    rw [effQuery_congr hq]
  have hkey : hashOf (applyQueryArg st' d (some q2)) d = hashOf st' d := by
    by_cases he : q2.isEmpty = true
    · have he1 : q1 = [] := by
        have h2 : q2 = [] := List.isEmpty_iff.mp he
        rw [h2] at hp
        exact hp.eq_nil
      have happ : applyQueryArg st' d (some q2) = st' := by
        simp only [applyQueryArg]
        rw [if_pos he]
      rw [happ]
    · have he1 : ¬ q1.isEmpty = true := by
        intro hx
        have h1e : q1 = [] := List.isEmpty_iff.mp hx
        rw [h1e] at hp
        rw [List.isEmpty_iff.mpr (hp.symm.eq_nil)] at he
        exact he rfl
      have h2 : effQuery (applyQueryArg st' d (some q2)) d = some q2 :=
        effQuery_applyArg he st' d
      have h1' : effQuery st' d = some q1 := by
        rw [effQuery_congr hq]
        exact effQuery_applyArg he1 st d
      unfold hashOf
      rw [h2, h1']
      exact (dumpQ_eq_of_perm hp hnd).symm ▸ rfl
  have hcd : (applyQueryArg st' d (some q2)).classData = st'.classData := by
    simp only [applyQueryArg]
    split
    · rfl
    · rfl
  have hcl2 : cacheLookup (applyQueryArg st' d (some q2))
      (hashOf (applyQueryArg st' d (some q2)) d) = some ref := by
    unfold cacheLookup at hcache ⊢
    rw [hcd, hkey]
    exact hcache
  refine ⟨?_, hkey.trans hst'1, ?_, ?_, ?_, ?_⟩
  · unfold fetch
    rw [hcl2]
  · simp only [applyQueryArg]
    split
    · rfl
    · rfl
  · simp only [applyQueryArg]
    split
    · rfl
    · rfl
  · simp only [applyQueryArg]
    split
    · rfl
    · rfl
  · simp only [applyQueryArg]
    split
    · rfl
    · rfl

/-- Witness for C1: the two-key query in both insertion orders against the
concrete flat scraper, starting from a fresh state. -/
theorem claim_C1_witness :
    List.Perm cq1 cq2 ∧ (cq1.map Prod.fst).Nodup ∧
    fetch cSc initSt 1 (some cq1) = .ok 0 c1st1 ∧
    (fetch cSc c1st1 1 (some cq2) = .ok 0 (applyQueryArg c1st1 1 (some cq2)) ∧
     hashOf (applyQueryArg c1st1 1 (some cq2)) 1 =
       hashOf (applyQueryArg initSt 1 (some cq1)) 1 ∧
     (applyQueryArg c1st1 1 (some cq2)).fetchLog = c1st1.fetchLog ∧
     (applyQueryArg c1st1 1 (some cq2)).current = c1st1.current ∧
     (applyQueryArg c1st1 1 (some cq2)).path = c1st1.path ∧
     (applyQueryArg c1st1 1 (some cq2)).rsHeap = c1st1.rsHeap) :=
  ⟨List.Perm.swap ("b", "2") ("a", "1") [], by decide, rfl,
   claim_C1 cSc initSt 1 cq1 cq2 0 c1st1
     (List.Perm.swap ("b", "2") ("a", "1") []) (by decide) rfl⟩

/-- Claim C10: `Result.dimensionvalues` is a class-level list, and the
default `dimensions={}` dict is evaluated once, so all Results constructed
without an explicit dimensions argument alias one mutable mapping
(`r2.rawRef = r3.rawRef`), every Result reads the same dimensionvalues
list, and the dimension values attached while appending `r1` (which has
its own raw tags) are visible through the unrelated `r2`. -/
theorem claim_C10 (w0 : RWorld) (v1 v2 v3 : Int)
    (tags : List (String × RawVal)) (dims : List Dim) (w' : RWorld)
    (e : Option PyExc)
    (hap : rsAppendModel dims (mkResult w0 v1 (some tags)).2
        (mkResult w0 v1 (some tags)).1 = (w', e)) :
    (mkResult w0 v2 none).1.rawRef = (mkResult w0 v3 none).1.rawRef ∧
    readDimensionvalues w' (mkResult w0 v2 none).1 =
      readDimensionvalues w' (mkResult w0 v1 (some tags)).1 ∧
    readDimensionvalues w' (mkResult w0 v2 none).1 =
      (mkResult w0 v1 (some tags)).2.classDVs ++
        (resolveTags dims
          (readRawDims (mkResult w0 v1 (some tags)).2
            (mkResult w0 v1 (some tags)).1) none).1 := by
  have hw' : w' = (rsAppendModel dims (mkResult w0 v1 (some tags)).2
      (mkResult w0 v1 (some tags)).1).1 := by
    rw [hap]
  refine ⟨rfl, rfl, ?_⟩
  rw [hw']
  rfl

/-- Witness for C10 on the concrete municipality tag. -/
theorem claim_C10_witness :
    rsAppendModel [cMuniDim] (mkResult initRWorld 1 (some c10tags)).2
        (mkResult initRWorld 1 (some c10tags)).1 = (c10res.1, c10res.2) ∧
    ((mkResult initRWorld 2 none).1.rawRef =
        (mkResult initRWorld 3 none).1.rawRef ∧
     readDimensionvalues c10res.1 (mkResult initRWorld 2 none).1 =
       readDimensionvalues c10res.1 (mkResult initRWorld 1 (some c10tags)).1 ∧
     readDimensionvalues c10res.1 (mkResult initRWorld 2 none).1 =
       (mkResult initRWorld 1 (some c10tags)).2.classDVs ++
         (resolveTags [cMuniDim]
           (readRawDims (mkResult initRWorld 1 (some c10tags)).2
             (mkResult initRWorld 1 (some c10tags)).1) none).1) :=
  ⟨rfl, claim_C10 initRWorld 1 2 3 c10tags [cMuniDim] c10res.1 c10res.2 rfl⟩

end Statscraper
